import Mathlib

/-!
Verification of the document-structure extraction and TOC/cross-reference
engine of `mindoc.py` (a Python/SQL-to-HTML documentation tool).

Python strings are shallowly embedded as `List Char`.  The string-rewriting
primitives (`str.replace`, `str.replace` with count 1, the counted `re.sub`
in `replace_every_nth`, `in`, `strip`, `lower`, `endswith`) are modelled as
structurally recursive scanners so that every definition evaluates by
`decide`/`rfl` on concrete inputs.  External collaborators of the engine
(the mistune Markdown renderer, BeautifulSoup tree construction, the file
system) are abstracted exactly where the spec declares them out of scope.
-/

set_option maxRecDepth 100000

namespace Mindoc

/-- A Python string, embedded as a list of characters. -/
abbrev Text := List Char

/-! ## String-rewriting primitives

`scanAux d r skip s` performs the left-to-right, non-overlapping scan that
Python's `str.replace(old, new)` performs: `skip` counts characters of a
previous match that still have to be consumed before scanning resumes.
`skip` is entered with `d.length - 1` because the first matched character
is consumed by the pattern match itself. -/

def scanAux (d r : Text) : Nat → Text → Text
  | _ + 1, [] => []
  | skip + 1, _ :: rest => scanAux d r skip rest
  | 0, [] => []
  | 0, c :: rest =>
    if d.isPrefixOf (c :: rest) then r ++ scanAux d r (d.length - 1) rest
    else c :: scanAux d r 0 rest

/-- Python `s.replace(d, r)`: replace every non-overlapping occurrence of
`d` in `s` by `r`, scanning left to right.  (Never called with `d = []`
in this development; Python's empty-pattern behaviour is not modelled.) -/
def pyReplace (s d r : Text) : Text := scanAux d r 0 s

/-- Helper for `pyReplace1`: replace only the first occurrence, then copy
the remainder verbatim. -/
def replace1Aux (d r : Text) : Text → Text
  | [] => []
  | c :: rest =>
    if d.isPrefixOf (c :: rest) then r ++ rest.drop (d.length - 1)
    else c :: replace1Aux d r rest

/-- Python `s.replace(d, r, 1)`: replace only the first occurrence of `d`. -/
def pyReplace1 (s d r : Text) : Text := replace1Aux d r s

/-- The counter-and-skip scan behind `replace_every_nth` (mindoc.py lines
566-570).  `re.sub` visits the non-overlapping occurrences of the literal
pattern `d` left to right; the lambda keeps the occurrence (`m.group()`,
i.e. `d` itself) when `next(c) % nth` is non-zero and substitutes
`replace_with` when the 0-based occurrence counter `i` satisfies
`i % nth == 0`.  Either way the matched characters are consumed. -/
def scanNthAux (d r : Text) (nth : Nat) : Nat → Nat → Text → Text
  | _, _ + 1, [] => []
  | i, skip + 1, _ :: rest => scanNthAux d r nth i skip rest
  | _, 0, [] => []
  | i, 0, c :: rest =>
    if d.isPrefixOf (c :: rest) then
      (if i % nth == 0 then r else d) ++ scanNthAux d r nth (i + 1) (d.length - 1) rest
    else c :: scanNthAux d r nth i 0 rest

/-- mindoc.py lines 566-570, `replace_every_nth`: `re.sub` over the literal
pattern with a fresh `itertools.count()` counter starting at 0. -/
def replace_every_nth (original_string substring_to_replace replace_with : Text)
    (nth : Nat) : Text :=
  scanNthAux substring_to_replace replace_with nth 0 0 original_string

/-- Python `d in s` (substring containment test). -/
def hasSub (d : Text) : Text → Bool
  | [] => d.isEmpty
  | c :: rest => d.isPrefixOf (c :: rest) || hasSub d rest

/-- Python `s.endswith(suf)`. -/
def endsWith (s suf : Text) : Bool := suf.isSuffixOf s

/-! ## Markup construction (mindoc.py lines 558-563 and the constants of
`convert_python_blocks` / `convert_sql_blocks`) -/

/-- mindoc.py line 558: `tag(element_name) = '<' + element_name + '>'`. -/
def tag (element_name : Text) : Text := '<' :: element_name ++ ['>']

/-- mindoc.py line 562: `endtag(element_name) = '<' + '/' + element_name + '>'`. -/
def endtag (element_name : Text) : Text := '<' :: '/' :: element_name ++ ['>']

/-- mindoc.py line 209: `windows_newline = '\r' + '\n'`. -/
def windows_newline : Text := "\r\n".data

/-- mindoc.py line 215: the first fenced triplet of double quotes,
`'"""' + '\n'`. -/
def first_ftdq : Text := "\"\"\"\n".data

/-- mindoc.py line 219: subsequent fenced triplets must be newline-bounded,
`'\n' + '"""' + '\n'`. -/
def ftdq : Text := "\n\"\"\"\n".data

/-- mindoc.py line 220: `br = tag('br')`. -/
def br : Text := tag "br".data

/-- mindoc.py line 222: `ediv = endtag('div')`. -/
def ediv : Text := endtag "div".data

/-- mindoc.py line 223: the collapsible `View code` button opening tag. -/
def collapsible_button : Text :=
  tag "button type=\"button\" class=\"collapsible\" style=\"width: 80px; text-align:center; margin-bottom:0px;\"".data

/-- mindoc.py line 224: `ebutton = endtag('button')`. -/
def ebutton : Text := endtag "button".data

/-- mindoc.py line 225: the collapsible content `div` opening tag. -/
def content_div : Text := tag "div style=\" margin: 0;\" class=\"content\"".data

/-- mindoc.py line 227: `md_python_start = '\n```' + 'python\n\n'`. -/
def md_python_start : Text := "\n```python\n\n".data

/-- mindoc.py line 228: `md_python_end = '```\n\n'`. -/
def md_python_end : Text := "```\n\n".data

/-- mindoc.py line 229: the code-viewer-opening markup substituted for a
documentation-to-code fence transition. -/
def replace_with_pre : Text :=
  '\n' :: (br ++ br ++ collapsible_button ++ "View code".data ++ ebutton ++ content_div
    ++ md_python_start)

/-- mindoc.py line 230: the code-viewer-closing markup substituted for a
code-to-documentation fence transition (and appended at end of file). -/
def replace_with_post : Text := '\n' :: (md_python_end ++ ediv ++ "\n".data)

/-- mindoc.py lines 201-236, `convert_python_blocks`: normalize Windows
newlines, delete the first `'"""\n'`, substitute the remaining
newline-bounded `'\n"""\n'` occurrences (1st, 3rd, 5th, ... get the
code-viewer-opening markup via `replace_every_nth` with `nth = 2`; the
kept 2nd, 4th, ... then get the code-viewer-closing markup via a plain
`replace`), and unconditionally append a closing markup. -/
def convert_python_blocks (code : Text) : Text :=
  pyReplace
    (replace_every_nth
      (pyReplace1
        (if hasSub windows_newline code then pyReplace code windows_newline "\n".data
         else code)                                   -- lines 209-211: Windows newline fix
        first_ftdq [])                                -- line 216: remove first '"""\n'
      ftdq replace_with_pre 2)                        -- line 232: every 1st, 3rd, ... '\n"""\n'
    ftdq replace_with_post                            -- line 233: the kept 2nd, 4th, ...
  ++ replace_with_post                                -- line 234: unconditional final close

/-- mindoc.py line 252: `comment_start = '/' + '*'`. -/
def comment_start : Text := "/*".data

/-- mindoc.py line 253: `comment_end = '*' + '/'`. -/
def comment_end : Text := "*/".data

/-- mindoc.py line 266: `md_sql_start = '\n```' + 'sql'`. -/
def md_sql_start : Text := "\n```sql".data

/-- mindoc.py line 267: `md_sql_end = '```\n'`. -/
def md_sql_end : Text := "```\n".data

/-- mindoc.py line 268: the code-viewer-opening markup of the SQL converter. -/
def replace_with_pre_sql : Text :=
  br ++ collapsible_button ++ "View code".data ++ ebutton ++ content_div ++ md_sql_start

/-- mindoc.py line 269: the code-viewer-closing markup of the SQL converter. -/
def replace_with_post_sql : Text := md_sql_end ++ ediv ++ "\n".data

/-- mindoc.py lines 245-274, `convert_sql_blocks`: normalize Windows
newlines, delete the first `'/*'`, replace the first `'*/'` with the
code-viewer-opening markup, and append a single closing markup; all later
comment delimiters are left untouched. -/
def convert_sql_blocks (code : Text) : Text :=
  pyReplace1
    (pyReplace1
      (if hasSub windows_newline code then pyReplace code windows_newline "\n".data
       else code)                                     -- lines 248-250: Windows newline fix
      comment_start [])                               -- line 256: remove first '/*'
    comment_end replace_with_pre_sql                  -- line 271: first '*/' opens the code viewer
  ++ replace_with_post_sql                            -- line 272: unconditional final close

/-! ## Occurrence bookkeeping

The scanners above replace the non-overlapping occurrences of a literal
pattern in document order.  To reason about them we track where occurrences
can start.  `segOK d p` says that no occurrence of the delimiter `d` starts
strictly inside the segment `p`, whatever follows `p` next — since a match
starting inside `p` reads at most `d.length - 1` characters beyond `p`, it
suffices to test the concrete text `p ++ d.dropLast`, which makes the
condition decidable for concrete segments. -/

theorem prefixIff {l₁ l₂ : Text} : l₁.isPrefixOf l₂ = true ↔ l₁ <+: l₂ :=
  List.isPrefixOf_iff_prefix

theorem prefixTakeIff {l₁ l₂ : Text} : l₁ <+: l₂ ↔ l₁ = l₂.take l₁.length :=
  List.prefix_iff_eq_take

theorem prefixAppend (l₁ l₂ : Text) : l₁ <+: l₁ ++ l₂ :=
  List.prefix_append l₁ l₂

/-- No occurrence of `d` starts strictly inside `a` when the text continues
with `s`. -/
def noMatchPre (d a s : Text) : Prop :=
  ∀ u w, a = u ++ w → w ≠ [] → d.isPrefixOf (w ++ s) = false

/-- Decidable occurrence-freeness of a segment (see section comment). -/
def segOK (d p : Text) : Bool :=
  (List.range p.length).all fun i => !(d.isPrefixOf ((p ++ d.dropLast).drop i))

/-- A prefix match survives extending the text on the right. -/
theorem isPrefixOf_mono (d w s : Text) (h : d.isPrefixOf w = true) :
    d.isPrefixOf (w ++ s) = true := by
  rw [prefixIff] at h ⊢
  exact h.trans (prefixAppend w s)

/-- A match of `d` starting at a nonempty suffix `w` of a segment only
reads the first `d.length - 1` characters of what follows, so it is
already visible in `w ++ d.dropLast` when the continuation starts with a
full copy of `d`. -/
theorem isPrefixOf_trunc (d w s : Text) (hw : w ≠ [])
    (h : d.isPrefixOf (w ++ (d ++ s)) = true) :
    d.isPrefixOf (w ++ d.dropLast) = true := by
  have hlen : 1 ≤ w.length := by
    cases w with
    | nil => exact absurd rfl hw
    | cons c w' => simp
  have key : (w ++ (d ++ s)).take d.length = (w ++ d.dropLast).take d.length := by
    rw [List.take_append_eq_append_take, List.take_append_eq_append_take]
    rw [List.take_append_eq_append_take, List.dropLast_eq_take, List.take_take]
    have h2 : d.length - w.length - d.length = 0 := by omega
    have h3 : min (d.length - w.length) (d.length - 1) = d.length - w.length := by omega
    rw [h2, h3]
    simp
  rw [prefixIff, prefixTakeIff] at h ⊢
  rw [← key]
  exact h

/-- `segOK` segments admit no internal match when followed by a delimiter
copy. -/
theorem noMatchPre_of_segOK (d p s : Text) (h : segOK d p = true) :
    noMatchPre d p (d ++ s) := by
  intro u w hw hne
  cases hc : d.isPrefixOf (w ++ (d ++ s)) with
  | false => rfl
  | true =>
    exfalso
    have htr : d.isPrefixOf (w ++ d.dropLast) = true := isPrefixOf_trunc d w s hne hc
    have hlt : u.length < p.length := by
      rw [hw, List.length_append]
      cases w with
      | nil => exact absurd rfl hne
      | cons c w' => simp
    rw [segOK, List.all_eq_true] at h
    have h0 := h u.length (List.mem_range.2 hlt)
    rw [hw, List.append_assoc, List.drop_left] at h0
    simp [htr] at h0

theorem noMatchPre_cons (d : Text) (c : Char) (a s : Text)
    (h : noMatchPre d (c :: a) s) : noMatchPre d a s := by
  intro u w hw hne
  exact h (c :: u) w (by rw [hw]; rfl) hne

theorem noMatchPre_head (d : Text) (c : Char) (a s : Text)
    (h : noMatchPre d (c :: a) s) : d.isPrefixOf (c :: (a ++ s)) = false := by
  have := h [] (c :: a) rfl (by simp)
  simpa using this

theorem segOK_head (d : Text) (c : Char) (p : Text) (h : segOK d (c :: p) = true) :
    d.isPrefixOf (c :: (p ++ d.dropLast)) = false := by
  rw [segOK, List.all_eq_true] at h
  have h0 := h 0 (List.mem_range.2 (by simp))
  simp only [List.drop_zero, List.cons_append] at h0
  cases hx : d.isPrefixOf (c :: (p ++ d.dropLast)) with
  | false => rfl
  | true => rw [hx] at h0; exact Bool.noConfusion h0

theorem segOK_cons (d : Text) (c : Char) (p : Text) (h : segOK d (c :: p) = true) :
    segOK d p = true := by
  rw [segOK, List.all_eq_true] at h ⊢
  intro i hi
  have hi' : i + 1 < (c :: p).length := by
    have := List.mem_range.1 hi
    simpa using Nat.succ_lt_succ this
  have := h (i + 1) (List.mem_range.2 hi')
  simpa using this

/-! ### Scanner lemmas -/

theorem scanAux_skip (d r : Text) :
    ∀ (k : Nat) (s : Text), scanAux d r k s = scanAux d r 0 (s.drop k)
  | 0, s => by rw [List.drop_zero]
  | k + 1, [] => by simp [scanAux]
  | k + 1, c :: s => by
    simp only [scanAux, List.drop_succ_cons]
    exact scanAux_skip d r k s

theorem scanAux_append (d r a s : Text) (h : noMatchPre d a s) :
    scanAux d r 0 (a ++ s) = a ++ scanAux d r 0 s := by
  induction a with
  | nil => rfl
  | cons c a ih =>
    have h0 : ¬ (d.isPrefixOf (c :: (a ++ s)) = true) := by
      rw [noMatchPre_head d c a s h]
      exact Bool.false_ne_true
    rw [List.cons_append]
    simp only [scanAux]
    rw [if_neg h0, ih (noMatchPre_cons d c a s h)]
    rfl

theorem scanAux_match (d r : Text) (hd : d ≠ []) (s : Text) :
    scanAux d r 0 (d ++ s) = r ++ scanAux d r 0 s := by
  cases d with
  | nil => exact absurd rfl hd
  | cons c d' =>
    have hp : (c :: d').isPrefixOf (c :: (d' ++ s)) = true :=
      prefixIff.2 (prefixAppend (c :: d') s)
    rw [List.cons_append]
    simp only [scanAux]
    rw [if_pos hp, scanAux_skip]
    congr 2
    simp [List.drop_left']

theorem scanAux_eq_self (d r : Text) :
    ∀ p, segOK d p = true → scanAux d r 0 p = p
  | [], _ => rfl
  | c :: p, h => by
    have h0 : ¬ (d.isPrefixOf (c :: p) = true) := by
      cases hc : d.isPrefixOf (c :: p) with
      | false => exact Bool.false_ne_true
      | true =>
        exfalso
        have hext : d.isPrefixOf (c :: (p ++ d.dropLast)) = true := by
          have := isPrefixOf_mono d (c :: p) d.dropLast hc
          simpa using this
        rw [segOK_head d c p h] at hext
        exact Bool.noConfusion hext
    simp only [scanAux]
    rw [if_neg h0, scanAux_eq_self d r p (segOK_cons d c p h)]

theorem scanNthAux_skip (d r : Text) (nth i : Nat) :
    ∀ (k : Nat) (s : Text), scanNthAux d r nth i k s = scanNthAux d r nth i 0 (s.drop k)
  | 0, s => by rw [List.drop_zero]
  | k + 1, [] => by simp [scanNthAux]
  | k + 1, c :: s => by
    simp only [scanNthAux, List.drop_succ_cons]
    exact scanNthAux_skip d r nth i k s

theorem scanNthAux_append (d r : Text) (nth i : Nat) (a s : Text) (h : noMatchPre d a s) :
    scanNthAux d r nth i 0 (a ++ s) = a ++ scanNthAux d r nth i 0 s := by
  induction a with
  | nil => rfl
  | cons c a ih =>
    have h0 : ¬ (d.isPrefixOf (c :: (a ++ s)) = true) := by
      rw [noMatchPre_head d c a s h]
      exact Bool.false_ne_true
    rw [List.cons_append]
    simp only [scanNthAux]
    rw [if_neg h0, ih (noMatchPre_cons d c a s h)]
    rfl

theorem scanNthAux_match (d r : Text) (nth : Nat) (hd : d ≠ []) (i : Nat) (s : Text) :
    scanNthAux d r nth i 0 (d ++ s)
      = (if i % nth == 0 then r else d) ++ scanNthAux d r nth (i + 1) 0 s := by
  cases d with
  | nil => exact absurd rfl hd
  | cons c d' =>
    have hp : (c :: d').isPrefixOf (c :: (d' ++ s)) = true :=
      prefixIff.2 (prefixAppend (c :: d') s)
    rw [List.cons_append]
    simp only [scanNthAux]
    rw [if_pos hp, scanNthAux_skip]
    congr 2
    simp only [List.length_cons, Nat.add_sub_cancel]
    exact List.drop_left d' s

theorem scanNthAux_eq_self (d r : Text) (nth i : Nat) :
    ∀ p, segOK d p = true → scanNthAux d r nth i 0 p = p
  | [], _ => rfl
  | c :: p, h => by
    have h0 : ¬ (d.isPrefixOf (c :: p) = true) := by
      cases hc : d.isPrefixOf (c :: p) with
      | false => exact Bool.false_ne_true
      | true =>
        exfalso
        have hext : d.isPrefixOf (c :: (p ++ d.dropLast)) = true := by
          have := isPrefixOf_mono d (c :: p) d.dropLast hc
          simpa using this
        rw [segOK_head d c p h] at hext
        exact Bool.noConfusion hext
    simp only [scanNthAux]
    rw [if_neg h0, scanNthAux_eq_self d r nth i p (segOK_cons d c p h)]

theorem replace1Aux_append (d r a s : Text) (h : noMatchPre d a s) :
    replace1Aux d r (a ++ s) = a ++ replace1Aux d r s := by
  induction a with
  | nil => rfl
  | cons c a ih =>
    have h0 : ¬ (d.isPrefixOf (c :: (a ++ s)) = true) := by
      rw [noMatchPre_head d c a s h]
      exact Bool.false_ne_true
    rw [List.cons_append]
    simp only [replace1Aux]
    rw [if_neg h0, ih (noMatchPre_cons d c a s h)]
    rfl

theorem replace1Aux_match (d r : Text) (hd : d ≠ []) (s : Text) :
    replace1Aux d r (d ++ s) = r ++ s := by
  cases d with
  | nil => exact absurd rfl hd
  | cons c d' =>
    have hp : (c :: d').isPrefixOf (c :: (d' ++ s)) = true :=
      prefixIff.2 (prefixAppend (c :: d') s)
    rw [List.cons_append]
    simp only [replace1Aux]
    rw [if_pos hp]
    congr 1
    simp only [List.length_cons, Nat.add_sub_cancel]
    exact List.drop_left d' s

/-! ### Joining segments with delimiters -/

/-- `joinWith d [p₀, …, pₙ] = p₀ ++ d ++ p₁ ++ d ++ … ++ d ++ pₙ`. -/
def joinWith (d : Text) : List Text → Text
  | [] => []
  | [p] => p
  | p :: q :: rest => p ++ d ++ joinWith d (q :: rest)

/-- Merge consecutive pairs of segments with `pre` between them:
`pairUp pre [p₀, p₁, p₂, p₃, p₄] = [p₀ ++ pre ++ p₁, p₂ ++ pre ++ p₃, p₄]`. -/
def pairUp (pre : Text) : List Text → List Text
  | [] => []
  | [p] => [p]
  | p :: q :: rest => (p ++ pre ++ q) :: pairUp pre rest

/-- The result of the counted scan over joined segments: the separator
after segment `i` is `r` when `i % nth = 0` and the delimiter is kept
otherwise. -/
def joinNth (d r : Text) (nth : Nat) : Nat → List Text → Text
  | _, [] => []
  | _, [p] => p
  | i, p :: q :: rest =>
    p ++ (if i % nth == 0 then r else d) ++ joinNth d r nth (i + 1) (q :: rest)

theorem joinWith_cons (d c : Text) (cs : List Text) (hcs : cs ≠ []) :
    joinWith d (c :: cs) = c ++ d ++ joinWith d cs := by
  cases cs with
  | nil => exact absurd rfl hcs
  | cons q rest => rfl

theorem pairUp_ne_nil (r : Text) :
    ∀ parts : List Text, parts ≠ [] → pairUp r parts ≠ []
  | [], h => absurd rfl h
  | [p], _ => by simp [pairUp]
  | p :: q :: rest, _ => by simp [pairUp]

/-- Replacing every occurrence of the delimiter in a clean join replaces
exactly the explicit separators. -/
theorem scanAux_joinWith (d r : Text) (hd : d ≠ []) :
    ∀ parts : List Text, (∀ p ∈ parts, segOK d p = true) →
      scanAux d r 0 (joinWith d parts) = joinWith r parts
  | [], _ => rfl
  | [p], h => by
    simp only [joinWith]
    exact scanAux_eq_self d r p (h p (by simp))
  | p :: q :: rest, h => by
    simp only [joinWith]
    rw [List.append_assoc,
      scanAux_append d r p (d ++ joinWith d (q :: rest))
        (noMatchPre_of_segOK d p _ (h p (by simp))),
      scanAux_match d r hd,
      scanAux_joinWith d r hd (q :: rest) (fun x hx => h x (by simp [hx]))]
    simp [List.append_assoc]

/-- The counted scan over a clean join: separator `i` becomes `r` when
`i % nth = 0` and is kept (as the delimiter) otherwise. -/
theorem scanNthAux_joinWith (d r : Text) (nth : Nat) (hd : d ≠ []) :
    ∀ (i : Nat) (parts : List Text), (∀ p ∈ parts, segOK d p = true) →
      scanNthAux d r nth i 0 (joinWith d parts) = joinNth d r nth i parts
  | _, [], _ => rfl
  | i, [p], h => by
    simp only [joinWith, joinNth]
    exact scanNthAux_eq_self d r nth i p (h p (by simp))
  | i, p :: q :: rest, h => by
    simp only [joinWith, joinNth]
    rw [List.append_assoc,
      scanNthAux_append d r nth i p (d ++ joinWith d (q :: rest))
        (noMatchPre_of_segOK d p _ (h p (by simp))),
      scanNthAux_match d r nth hd,
      scanNthAux_joinWith d r nth hd (i + 1) (q :: rest) (fun x hx => h x (by simp [hx]))]
    simp [List.append_assoc]

/-- With `nth = 2` and an even starting counter, the counted join is the
plain join of the paired-up segments: `pre` lands after segments
`0, 2, 4, …` (i.e. at the 1st, 3rd, 5th, … separator) and the delimiter is
kept at the 2nd, 4th, … separator. -/
theorem joinNth_pairUp (d r : Text) :
    ∀ (parts : List Text) (i : Nat), i % 2 = 0 →
      joinNth d r 2 i parts = joinWith d (pairUp r parts)
  | [], _, _ => rfl
  | [p], _, _ => rfl
  | [p, q], i, hi => by
    simp only [joinNth, pairUp, joinWith, hi]
    simp
  | p :: q :: x :: rest, i, hi => by
    have hi1 : ((i + 1) % 2 == 0) = false := by
      have : (i + 1) % 2 = 1 := by omega
      simp [this]
    have hi2 : (i + 2) % 2 = 0 := by omega
    simp only [joinNth, pairUp, hi, hi1]
    rw [joinWith_cons d _ _ (pairUp_ne_nil r (x :: rest) (by simp)),
      ← joinNth_pairUp d r (x :: rest) (i + 2) hi2]
    simp [List.append_assoc]

/-! ## Claims C1-C3: the fence segmenter -/

/-- The leading `'"""\n'` of a well-formed python source is the first
occurrence found by `str.replace(first_ftdq, '', 1)` and is removed
without inserting anything. -/
theorem pyReplace1_first_ftdq (s : Text) :
    pyReplace1 (first_ftdq ++ s) first_ftdq [] = s := by
  unfold pyReplace1
  rw [replace1Aux_match first_ftdq [] (by decide) s]
  rfl

/-- Claim C1, counterexample.  The claim states that the 1st, 3rd, 5th, …
remaining `'\n"""\n'` occurrence is replaced with the code-viewer-closing
markup and the 2nd, 4th, … with the opening markup.  On the source
`'"""\ndoc\n"""\ncode'` there is exactly one remaining occurrence (the
1st); `convert_python_blocks` replaces it with the opening markup
`replace_with_pre`, not with the closing markup the claim predicts. -/
theorem C1_counterexample :
    convert_python_blocks "\"\"\"\ndoc\n\"\"\"\ncode".data
        = "doc".data ++ replace_with_pre ++ "code".data ++ replace_with_post
      ∧ convert_python_blocks "\"\"\"\ndoc\n\"\"\"\ncode".data
        ≠ "doc".data ++ replace_with_post ++ "code".data ++ replace_with_post := by
  decide

/-- Claim C1 (amended): for every fenced-comment (python) source text that
decomposes as the first delimiter followed by segments joined by the
newline-bounded fence delimiter — with no delimiter occurrence starting
inside a segment (`h1`) or inside a merged documentation-markup-code chunk
produced by the first pass (`h2`) — the remaining delimiter occurrences,
counted 1-based in document order, are replaced so that every ODD-indexed
occurrence (1st, 3rd, 5th, …) becomes the code-viewer-OPENING markup
`replace_with_pre` and every EVEN-indexed occurrence (2nd, 4th, 6th, …)
becomes the code-viewer-CLOSING markup `replace_with_post`; a final
closing markup is appended.  (The claim as frozen has the two parities
swapped.) -/
theorem C1_theorem (parts : List Text)
    (hw : hasSub windows_newline (first_ftdq ++ joinWith ftdq parts) = false)
    (h1 : ∀ p ∈ parts, segOK ftdq p = true)
    (h2 : ∀ c ∈ pairUp replace_with_pre parts, segOK ftdq c = true) :
    convert_python_blocks (first_ftdq ++ joinWith ftdq parts)
      = joinWith replace_with_post (pairUp replace_with_pre parts)
        ++ replace_with_post := by
  have hw' : ¬ (hasSub windows_newline (first_ftdq ++ joinWith ftdq parts) = true) := by
    rw [hw]
    exact Bool.false_ne_true
  unfold convert_python_blocks replace_every_nth pyReplace
  rw [if_neg hw',
    pyReplace1_first_ftdq (joinWith ftdq parts),
    scanNthAux_joinWith ftdq replace_with_pre 2 (by decide) 0 parts h1,
    joinNth_pairUp ftdq replace_with_pre parts 0 rfl,
    scanAux_joinWith ftdq replace_with_post (by decide) (pairUp replace_with_pre parts) h2]

/-- Claim C1, witness: a five-segment source (four remaining delimiters);
the 1st and 3rd become opening markup, the 2nd and 4th closing markup. -/
theorem C1_witness :
    convert_python_blocks
        (first_ftdq ++ joinWith ftdq
          ["doc0".data, "code1".data, "doc2".data, "code3".data, "doc4".data])
      = joinWith replace_with_post
          (pairUp replace_with_pre
            ["doc0".data, "code1".data, "doc2".data, "code3".data, "doc4".data])
        ++ replace_with_post :=
  C1_theorem ["doc0".data, "code1".data, "doc2".data, "code3".data, "doc4".data]
    (by decide) (by decide) (by decide)

/-- Claim C2, counterexample.  The claim's example input
`'"""doc"""\ncode'` has no newline-bounded delimiters; the only occurrence
of `'"""\n'` starts at the second fence, so `convert_python_blocks`
returns `'"""doccode'` (plus the unconditionally appended closing markup)
— not a documentation segment `doc` followed by a code segment `code`:
no code-viewer-opening markup is produced at all. -/
theorem C2_counterexample :
    convert_python_blocks "\"\"\"doc\"\"\"\ncode".data
        = "\"\"\"doccode".data ++ replace_with_post
      ∧ convert_python_blocks "\"\"\"doc\"\"\"\ncode".data
        ≠ "doc".data ++ replace_with_pre ++ "code".data ++ replace_with_post := by
  decide

/-- Claim C2 (amended): the first fence delimiter occurrence is removed
entirely and never produces boundary markup; in particular, for the
newline-bounded source `'"""\ndoc\n"""\ncode'` the output is the
documentation segment `doc` followed directly by the code segment `code`
(wrapped by the opening/closing code-viewer markup), with no
collapsible-wrapper markup preceding `doc`. -/
theorem C2_theorem :
    (∀ s : Text, pyReplace1 (first_ftdq ++ s) first_ftdq [] = s)
    ∧ convert_python_blocks "\"\"\"\ndoc\n\"\"\"\ncode".data
        = "doc".data ++ replace_with_pre ++ "code".data ++ replace_with_post := by
  refine ⟨pyReplace1_first_ftdq, ?_⟩
  decide

/-- Claim C3: for every source text of the fenced-comment or block-comment
kind, after all delimiter replacements the segmenter appends the
code-viewer-closing markup unconditionally at the end of the output, so
the output always ends with the closing markup — regardless of whether
the source ended mid-code or mid-documentation. -/
theorem C3_theorem :
    (∀ code : Text, ∃ s : Text, convert_python_blocks code = s ++ replace_with_post)
    ∧ (∀ code : Text, ∃ s : Text, convert_sql_blocks code = s ++ replace_with_post_sql) :=
  ⟨fun _ => ⟨_, rfl⟩, fun _ => ⟨_, rfl⟩⟩

/-! ## Claim C7: the block-comment (sql) segmenter -/

/-- Claim C7: for every block-comment (sql) source text of the shape
`'/*' ++ doc ++ '*/' ++ rest` in which no `'*/'` occurrence starts inside
`doc`, only the first comment block is treated as documentation: the
first `'/*'` is deleted, the first `'*/'` is replaced with the
code-viewer-opening markup, a single closing markup is appended at the
end, and the remainder `rest` — including any later literal `'/*'` or
`'*/'` delimiters — is left untouched as code text.  The output is one
documentation segment (`doc`) and one code segment (`rest`). -/
theorem C7_theorem (doc rest : Text)
    (hw : hasSub windows_newline (comment_start ++ (doc ++ (comment_end ++ rest))) = false)
    (hdoc : segOK comment_end doc = true) :
    convert_sql_blocks (comment_start ++ (doc ++ (comment_end ++ rest)))
      = doc ++ replace_with_pre_sql ++ rest ++ replace_with_post_sql := by
  have hw' : ¬ (hasSub windows_newline
      (comment_start ++ (doc ++ (comment_end ++ rest))) = true) := by
    rw [hw]
    exact Bool.false_ne_true
  unfold convert_sql_blocks pyReplace1
  rw [if_neg hw',
    replace1Aux_match comment_start [] (by decide) (doc ++ (comment_end ++ rest))]
  simp only [List.nil_append]
  rw [replace1Aux_append comment_end replace_with_pre_sql doc (comment_end ++ rest)
      (noMatchPre_of_segOK comment_end doc rest hdoc),
    replace1Aux_match comment_end replace_with_pre_sql (by decide) rest]
  simp [List.append_assoc]

/-- Claim C7, witness: a source with three `'/* */'` comments — the first
is the documentation block, the other two stay verbatim inside the single
code segment. -/
theorem C7_witness :
    convert_sql_blocks (comment_start ++ ("d".data ++ (comment_end ++ "\nA/*x*/B/*y*/C".data)))
      = "d".data ++ replace_with_pre_sql ++ "\nA/*x*/B/*y*/C".data ++ replace_with_post_sql :=
  C7_theorem "d".data "\nA/*x*/B/*y*/C".data (by decide) (by decide)

/-! ## Claim C6: single insertion of the table of contents -/

/-- mindoc.py line 543: `toc_tag = '[TOC]'`. -/
def toc_tag : Text := "[TOC]".data

/-- mindoc.py line 544, the text-substitution step
`html.replace(toc_tag, toc_html, 1)`: replace only the first occurrence
of the TOC placeholder in the serialized document with the assembled TOC
fragment.  (The BeautifulSoup `prettify` serialization producing the
document string is an external collaborator.) -/
def toc_insert (html toc_html : Text) : Text := pyReplace1 html toc_tag toc_html

/-- Claim C6: in a document in which the TOC placeholder `[TOC]` occurs
two or more times (here: `a ++ [TOC] ++ b ++ [TOC] ++ c`, with no
occurrence starting inside the prefix `a`), only the first occurrence is
replaced by the synthesized TOC fragment; the remainder of the document —
including every later `[TOC]` occurrence — is copied verbatim. -/
theorem C6_theorem (a b c toc_html : Text) (ha : segOK toc_tag a = true) :
    toc_insert (a ++ (toc_tag ++ (b ++ (toc_tag ++ c)))) toc_html
      = a ++ toc_html ++ (b ++ (toc_tag ++ c)) := by
  unfold toc_insert pyReplace1
  rw [replace1Aux_append toc_tag toc_html a (toc_tag ++ (b ++ (toc_tag ++ c)))
      (noMatchPre_of_segOK toc_tag a (b ++ (toc_tag ++ c)) ha),
    replace1Aux_match toc_tag toc_html (by decide) (b ++ (toc_tag ++ c))]
  simp [List.append_assoc]

/-- Claim C6, witness: the second `[TOC]` stays literal text. -/
theorem C6_witness :
    toc_insert ("head ".data ++ (toc_tag ++ (" mid ".data ++ (toc_tag ++ " tail".data))))
        "TOCFRAGMENT".data
      = "head ".data ++ "TOCFRAGMENT".data
        ++ (" mid ".data ++ (toc_tag ++ " tail".data)) :=
  C6_theorem "head ".data " mid ".data " tail".data "TOCFRAGMENT".data (by decide)

/-! ## Claim C4: heading identifier derivation

The identifier of a heading (mindoc.py line 514) is
`header.string.replace('\n','').replace('\t','').strip()
  .replace(' ','_').replace('.','_').lower()`.
Python's `str.strip` and `str.lower` are modelled on the ASCII fragment
the engine operates on. -/

/-- ASCII whitespace stripped by Python `str.strip()`. -/
def pySpace (c : Char) : Bool :=
  c == ' ' || c == '\t' || c == '\n' || c == '\r' || c == '\x0b' || c == '\x0c'

/-- Python `s.strip()`: drop leading whitespace, then trailing whitespace. -/
def pyStrip (s : Text) : Text :=
  ((s.dropWhile pySpace).reverse.dropWhile pySpace).reverse

/-- Python `str.lower()` on one ASCII character. -/
def lowerChar (c : Char) : Char :=
  if c = 'A' then 'a'
  else if c = 'B' then 'b'
  else if c = 'C' then 'c'
  else if c = 'D' then 'd'
  else if c = 'E' then 'e'
  else if c = 'F' then 'f'
  else if c = 'G' then 'g'
  else if c = 'H' then 'h'
  else if c = 'I' then 'i'
  else if c = 'J' then 'j'
  else if c = 'K' then 'k'
  else if c = 'L' then 'l'
  else if c = 'M' then 'm'
  else if c = 'N' then 'n'
  else if c = 'O' then 'o'
  else if c = 'P' then 'p'
  else if c = 'Q' then 'q'
  else if c = 'R' then 'r'
  else if c = 'S' then 's'
  else if c = 'T' then 't'
  else if c = 'U' then 'u'
  else if c = 'V' then 'v'
  else if c = 'W' then 'w'
  else if c = 'X' then 'x'
  else if c = 'Y' then 'y'
  else if c = 'Z' then 'z'
  else c

/-- Python `s.lower()`. -/
def lowerText (s : Text) : Text := s.map lowerChar

/-- The ASCII uppercase letters. -/
def ucChars : Text := "ABCDEFGHIJKLMNOPQRSTUVWXYZ".data

/-- The ASCII lowercase letters. -/
def lcChars : Text := "abcdefghijklmnopqrstuvwxyz".data

/-- `lowerChar` either fixes its argument or maps an uppercase letter to a
lowercase letter. -/
theorem lowerChar_spec (c : Char) :
    lowerChar c = c ∨ (c ∈ ucChars ∧ lowerChar c ∈ lcChars) := by
  by_cases h1 : c = 'A'
  · subst h1; decide
  by_cases h2 : c = 'B'
  · subst h2; decide
  by_cases h3 : c = 'C'
  · subst h3; decide
  by_cases h4 : c = 'D'
  · subst h4; decide
  by_cases h5 : c = 'E'
  · subst h5; decide
  by_cases h6 : c = 'F'
  · subst h6; decide
  by_cases h7 : c = 'G'
  · subst h7; decide
  by_cases h8 : c = 'H'
  · subst h8; decide
  by_cases h9 : c = 'I'
  · subst h9; decide
  by_cases h10 : c = 'J'
  · subst h10; decide
  by_cases h11 : c = 'K'
  · subst h11; decide
  by_cases h12 : c = 'L'
  · subst h12; decide
  by_cases h13 : c = 'M'
  · subst h13; decide
  by_cases h14 : c = 'N'
  · subst h14; decide
  by_cases h15 : c = 'O'
  · subst h15; decide
  by_cases h16 : c = 'P'
  · subst h16; decide
  by_cases h17 : c = 'Q'
  · subst h17; decide
  by_cases h18 : c = 'R'
  · subst h18; decide
  by_cases h19 : c = 'S'
  · subst h19; decide
  by_cases h20 : c = 'T'
  · subst h20; decide
  by_cases h21 : c = 'U'
  · subst h21; decide
  by_cases h22 : c = 'V'
  · subst h22; decide
  by_cases h23 : c = 'W'
  · subst h23; decide
  by_cases h24 : c = 'X'
  · subst h24; decide
  by_cases h25 : c = 'Y'
  · subst h25; decide
  by_cases h26 : c = 'Z'
  · subst h26; decide
  left
  simp [lowerChar, h1, h2, h3, h4, h5, h6, h7, h8, h9, h10, h11, h12, h13, h14, h15, h16, h17, h18, h19, h20, h21, h22, h23, h24, h25, h26]

theorem lc_lowerChar_fix : ∀ x ∈ lcChars, lowerChar x = x := by decide

theorem lowerChar_idem (c : Char) : lowerChar (lowerChar c) = lowerChar c := by
  rcases lowerChar_spec c with h | ⟨-, h⟩
  · rw [h]
    exact h
  · exact lc_lowerChar_fix _ h

theorem lowerChar_eq_of_not_lc (y z : Char) (h : lowerChar y = z) (hz : z ∉ lcChars) :
    y = z := by
  rcases lowerChar_spec y with h' | ⟨-, h'⟩
  · exact h'.symm.trans h
  · exact absurd (h ▸ h') hz

theorem uc_not_space : ∀ x ∈ ucChars, pySpace x = false := by decide

theorem lc_not_space : ∀ x ∈ lcChars, pySpace x = false := by decide

theorem pySpace_lowerChar (c : Char) : pySpace (lowerChar c) = pySpace c := by
  rcases lowerChar_spec c with h | ⟨h1, h2⟩
  · rw [h]
  · rw [lc_not_space _ h2, uc_not_space _ h1]

/-! ### Single-character replacements as `filter` / `map` -/

/-- A single-character deletion `s.replace(a, '')` is a filter. -/
theorem scanAux_single_del (a : Char) :
    ∀ s : Text, scanAux [a] [] 0 s = s.filter (fun c => !(a == c))
  | [] => rfl
  | c :: rest => by
    by_cases hac : a = c
    · subst hac
      simp [scanAux, List.isPrefixOf, List.filter_cons, scanAux_single_del a rest]
    · simp [scanAux, List.isPrefixOf, hac, List.filter_cons, scanAux_single_del a rest]

/-- A single-character substitution `s.replace(a, b)` is a map. -/
theorem scanAux_single (a b : Char) :
    ∀ s : Text, scanAux [a] [b] 0 s = s.map (fun c => if a = c then b else c)
  | [] => rfl
  | c :: rest => by
    by_cases hac : a = c
    · subst hac
      simp [scanAux, List.isPrefixOf, scanAux_single a b rest]
    · simp [scanAux, List.isPrefixOf, hac, scanAux_single a b rest]

/-! ### `strip` lemmas -/

/-- The first character surviving `dropWhile` falsifies the predicate. -/
theorem dropWhile_head_false (p : Char → Bool) :
    ∀ (s : Text) (c : Char), (s.dropWhile p).head? = some c → p c = false
  | [], c, h => by simp [List.dropWhile] at h
  | x :: rest, c, h => by
    by_cases hx : p x = true
    · rw [List.dropWhile_cons, if_pos hx] at h
      exact dropWhile_head_false p rest c h
    · rw [List.dropWhile_cons, if_neg hx] at h
      rw [List.head?_cons, Option.some_inj] at h
      cases hpx : p x with
      | false => rw [← h]; exact hpx
      | true => exact absurd hpx hx

/-- `dropWhile` is the identity when the head already falsifies the
predicate. -/
theorem dropWhile_eq_self (p : Char → Bool) (s : Text)
    (h : ∀ c, s.head? = some c → p c = false) : s.dropWhile p = s := by
  cases s with
  | nil => rfl
  | cons x rest =>
    rw [List.dropWhile_cons, if_neg]
    rw [h x rfl]
    exact Bool.false_ne_true

/-- Stripping trailing characters does not change the head. -/
theorem rstrip_head? (p : Char → Bool) :
    ∀ (u : Text) (c : Char),
      ((u.reverse.dropWhile p).reverse).head? = some c → u.head? = some c
  | [], c, h => by simp at h
  | x :: u', c, h => by
    rw [List.reverse_cons, List.dropWhile_append] at h
    by_cases he : (u'.reverse.dropWhile p).isEmpty = true
    · rw [if_pos he] at h
      by_cases hx : p x = true
      · rw [List.dropWhile_cons, if_pos hx] at h
        simp [List.dropWhile] at h
      · rw [List.dropWhile_cons, if_neg hx] at h
        simp only [List.dropWhile_nil, List.reverse_cons, List.reverse_nil,
          List.nil_append, List.head?_cons, Option.some_inj] at h
        rw [List.head?_cons, h]
    · rw [if_neg he, List.reverse_append] at h
      simp only [List.reverse_cons, List.reverse_nil, List.nil_append,
        List.cons_append, List.head?_cons, Option.some_inj] at h
      rw [List.head?_cons, h]

/-- The head of a stripped string is not whitespace. -/
theorem pyStrip_head? (s : Text) (c : Char) (h : (pyStrip s).head? = some c) :
    pySpace c = false := by
  unfold pyStrip at h
  have h2 := rstrip_head? pySpace (s.dropWhile pySpace) c h
  exact dropWhile_head_false pySpace s c h2

/-- The last character of a stripped string is not whitespace. -/
theorem pyStrip_getLast? (s : Text) (c : Char) (h : (pyStrip s).getLast? = some c) :
    pySpace c = false := by
  unfold pyStrip at h
  rw [List.getLast?_reverse] at h
  exact dropWhile_head_false pySpace _ c h

/-- `strip` is the identity on a string whose first and last characters
are not whitespace. -/
theorem pyStrip_eq_self (s : Text)
    (hh : ∀ c, s.head? = some c → pySpace c = false)
    (hl : ∀ c, s.getLast? = some c → pySpace c = false) : pyStrip s = s := by
  unfold pyStrip
  rw [dropWhile_eq_self pySpace s hh]
  rw [dropWhile_eq_self pySpace s.reverse
    (fun c hc => hl c (by rw [← List.head?_reverse]; exact hc))]
  exact List.reverse_reverse s

/-- Characters of a stripped string come from the original string. -/
theorem mem_of_mem_pyStrip (w : Text) (x : Char) (h : x ∈ pyStrip w) : x ∈ w := by
  unfold pyStrip at h
  rw [List.mem_reverse] at h
  have h1 := List.dropWhile_subset pySpace h
  rw [List.mem_reverse] at h1
  exact List.dropWhile_subset pySpace h1

/-! ### The heading identifier -/

/-- mindoc.py line 548 (trimming shared with line 514): the heading
display text with embedded newlines and tabs removed and outer whitespace
stripped: `header.string.replace('\n','').replace('\t','').strip()`. -/
def trimmed_heading (s : Text) : Text :=
  pyStrip (pyReplace (pyReplace s ['\n'] []) ['\t'] [])

/-- mindoc.py line 514: the generated heading identifier
`header.string.replace('\n','').replace('\t','').strip()
  .replace(' ','_').replace('.','_').lower()`. -/
def heading_identifier (s : Text) : Text :=
  lowerText (pyReplace (pyReplace (trimmed_heading s) [' '] ['_']) ['.'] ['_'])

/-- The identifier derivation exactly as the spec words it (claim C4):
`lowercase(replace(replace(strip(text), " ", "_"), ".", "_"))` after
embedded newline and tab characters are stripped. -/
def spec_heading_identifier (text : Text) : Text :=
  lowerText
    (pyReplace
      (pyReplace (pyStrip (pyReplace (pyReplace text ['\n'] []) ['\t'] [])) [' '] ['_'])
      ['.'] ['_'])

/-- Substitution of one space by an underscore (one `.replace(' ','_')`
step, per character). -/
def subSp (c : Char) : Char := if ' ' = c then '_' else c

/-- Substitution of one period by an underscore (one `.replace('.','_')`
step, per character). -/
def subDt (c : Char) : Char := if '.' = c then '_' else c

/-- The per-character action of the identifier derivation after
stripping. -/
def idChar (c : Char) : Char := lowerChar (subDt (subSp c))

/-- The identifier is the stripped, newline/tab-free text mapped through
`idChar`. -/
theorem heading_identifier_eq (s : Text) :
    heading_identifier s
      = (pyStrip ((s.filter (fun c => !('\n' == c))).filter
          (fun c => !('\t' == c)))).map idChar := by
  unfold heading_identifier trimmed_heading lowerText pyReplace
  rw [scanAux_single_del '\n' s, scanAux_single_del '\t' _,
    scanAux_single ' ' '_' _, scanAux_single '.' '_' _, List.map_map, List.map_map]
  rfl

theorem subSp_eq_keep (y z : Char) (hz : z ≠ '_') (h : subSp y = z) : y = z := by
  unfold subSp at h
  by_cases hy : ' ' = y
  · rw [if_pos hy] at h
    exact absurd h.symm hz
  · rw [if_neg hy] at h
    exact h

theorem subDt_eq_keep (y z : Char) (hz : z ≠ '_') (h : subDt y = z) : y = z := by
  unfold subDt at h
  by_cases hy : '.' = y
  · rw [if_pos hy] at h
    exact absurd h.symm hz
  · rw [if_neg hy] at h
    exact h

/-- A special (non-lowercase-letter, non-underscore) output of `idChar`
can only come from that very character. -/
theorem idChar_eq_special (x z : Char) (hzlc : z ∉ lcChars) (hz : z ≠ '_')
    (h : idChar x = z) : x = z := by
  unfold idChar at h
  have h1 : subDt (subSp x) = z := lowerChar_eq_of_not_lc _ _ h hzlc
  have h2 : subSp x = z := subDt_eq_keep _ _ hz h1
  exact subSp_eq_keep _ _ hz h2

theorem idChar_ne_space (x : Char) : idChar x ≠ ' ' := by
  intro h
  have hx : x = ' ' := idChar_eq_special x ' ' (by decide) (by decide) h
  rw [hx] at h
  exact absurd h (by decide)

theorem idChar_ne_dot (x : Char) : idChar x ≠ '.' := by
  intro h
  have hx : x = '.' := idChar_eq_special x '.' (by decide) (by decide) h
  rw [hx] at h
  exact absurd h (by decide)

theorem lowerChar_idChar (x : Char) : lowerChar (idChar x) = idChar x :=
  lowerChar_idem _

theorem pySpace_subSp (c : Char) (h : pySpace c = false) : pySpace (subSp c) = false := by
  unfold subSp
  by_cases hc : ' ' = c
  · rw [if_pos hc]
    decide
  · rw [if_neg hc]
    exact h

theorem pySpace_subDt (c : Char) (h : pySpace c = false) : pySpace (subDt c) = false := by
  unfold subDt
  by_cases hc : '.' = c
  · rw [if_pos hc]
    decide
  · rw [if_neg hc]
    exact h

theorem pySpace_idChar (x : Char) (h : pySpace x = false) : pySpace (idChar x) = false := by
  unfold idChar
  rw [pySpace_lowerChar]
  exact pySpace_subDt _ (pySpace_subSp _ h)

/-- The heading identifier derivation is idempotent. -/
theorem heading_identifier_idem (s : Text) :
    heading_identifier (heading_identifier s) = heading_identifier s := by
  have hmain := heading_identifier_eq s
  set v := (s.filter (fun c => !('\n' == c))).filter (fun c => !('\t' == c)) with hv
  set u := pyStrip v with hu
  set t := heading_identifier s with htdef
  have hmem : ∀ a ∈ t, ∃ x, x ∈ u ∧ idChar x = a := by
    intro a ha
    rw [hmain] at ha
    rcases List.mem_map.1 ha with ⟨x, hx, hxa⟩
    exact ⟨x, hx, hxa⟩
  have hnl : ∀ a ∈ t, a ≠ '\n' := by
    intro a ha hcon
    rcases hmem a ha with ⟨x, hx, hxa⟩
    have hxnl : x = '\n' := idChar_eq_special x '\n' (by decide) (by decide) (hcon ▸ hxa)
    have hxv : x ∈ v := mem_of_mem_pyStrip v x (hu ▸ hx)
    rw [hv] at hxv
    have hq := (List.mem_filter.1 (List.mem_filter.1 hxv).1).2
    rw [hxnl] at hq
    simp at hq
  have htab : ∀ a ∈ t, a ≠ '\t' := by
    intro a ha hcon
    rcases hmem a ha with ⟨x, hx, hxa⟩
    have hxt : x = '\t' := idChar_eq_special x '\t' (by decide) (by decide) (hcon ▸ hxa)
    have hxv : x ∈ v := mem_of_mem_pyStrip v x (hu ▸ hx)
    rw [hv] at hxv
    have hq := (List.mem_filter.1 hxv).2
    rw [hxt] at hq
    simp at hq
  have hsp : ∀ a ∈ t, a ≠ ' ' := by
    intro a ha hcon
    rcases hmem a ha with ⟨x, _, hxa⟩
    exact idChar_ne_space x (hcon ▸ hxa)
  have hdot : ∀ a ∈ t, a ≠ '.' := by
    intro a ha hcon
    rcases hmem a ha with ⟨x, _, hxa⟩
    exact idChar_ne_dot x (hcon ▸ hxa)
  have hlower : ∀ a ∈ t, lowerChar a = a := by
    intro a ha
    rcases hmem a ha with ⟨x, _, hxa⟩
    rw [← hxa]
    exact lowerChar_idChar x
  have hhead : ∀ c, t.head? = some c → pySpace c = false := by
    intro c hc
    rw [hmain, List.head?_map] at hc
    cases hu' : u.head? with
    | none => rw [hu'] at hc; simp at hc
    | some x =>
      rw [hu'] at hc
      simp only [Option.map_some', Option.some_inj] at hc
      have hx : pySpace x = false := pyStrip_head? v x (by rw [← hu]; exact hu')
      rw [← hc]
      exact pySpace_idChar x hx
  have hlast : ∀ c, t.getLast? = some c → pySpace c = false := by
    intro c hc
    rw [hmain, List.getLast?_map] at hc
    cases hu' : u.getLast? with
    | none => rw [hu'] at hc; simp at hc
    | some x =>
      rw [hu'] at hc
      simp only [Option.map_some', Option.some_inj] at hc
      have hx : pySpace x = false := pyStrip_getLast? v x (by rw [← hu]; exact hu')
      rw [← hc]
      exact pySpace_idChar x hx
  rw [heading_identifier_eq t]
  have f1 : t.filter (fun c => !('\n' == c)) = t := by
    rw [List.filter_eq_self]
    intro a ha
    have : ¬ ('\n' = a) := fun hcon => hnl a ha hcon.symm
    simp [this]
  have f2 : t.filter (fun c => !('\t' == c)) = t := by
    rw [List.filter_eq_self]
    intro a ha
    have : ¬ ('\t' = a) := fun hcon => htab a ha hcon.symm
    simp [this]
  rw [f1, f2, pyStrip_eq_self t hhead hlast]
  have hfix : ∀ a ∈ t, idChar a = a := by
    intro a ha
    unfold idChar subSp subDt
    rw [if_neg (show ¬ (' ' = a) from fun hcon => hsp a ha hcon.symm)]
    rw [if_neg (show ¬ ('.' = a) from fun hcon => hdot a ha hcon.symm)]
    exact hlower a ha
  calc t.map idChar = t.map id := List.map_congr_left hfix
    _ = t := List.map_id t

/-- Claim C4: for every heading display text, the generated identifier
equals `lowercase(replace(replace(strip(text), " ", "_"), ".", "_"))`
after embedded newline and tab characters are stripped; the derivation is
deterministic (it is a pure function of the text) and idempotent, and the
text `"My Section."` yields the identifier `"my_section_"`. -/
theorem C4_theorem :
    (∀ text : Text, heading_identifier text = spec_heading_identifier text)
    ∧ (∀ text : Text,
        heading_identifier (heading_identifier text) = heading_identifier text)
    ∧ heading_identifier "My Section.".data = "my_section_".data :=
  ⟨fun _ => rfl, heading_identifier_idem, by decide⟩

/-! ## Claim C5: the cross-reference pass -/

/-- mindoc.py line 548: the cross-reference marker
`'[' + header[0].replace('\n','').replace('\t','').strip() + ']'`. -/
def cross_ref_marker (header_text : Text) : Text :=
  '[' :: trimmed_heading header_text ++ [']']

/-- mindoc.py line 549: the anchor replacing the marker — `tag` of the
anchor attributes (with the `href` built from the heading identifier),
then the display text, then `endtag('a')`. -/
def cross_ref_html (header_text header_id : Text) : Text :=
  tag ("a style=\"color: #555; text-decoration: none;\" href=\"#".data
      ++ header_id ++ "\"".data)
    ++ header_text ++ endtag "a".data

/-- mindoc.py lines 547-550: for each heading record (display text,
identifier) in discovery order, replace every occurrence of its marker in
the serialized document with its anchor markup. -/
def cross_ref_pass (header_list : List (Text × Text)) (html : Text) : Text :=
  header_list.foldl
    (fun h hdr => pyReplace h (cross_ref_marker hdr.1) (cross_ref_html hdr.1 hdr.2))
    html

/-- Claim C5: for a heading record collected during the TOC pass, every
literal occurrence of the marker `'[' + trimmed display text + ']'` in
the serialized document is replaced with an anchor tag showing the
heading's display text and linking to its identifier, and the text
between occurrences is copied verbatim.  In particular, for headings
`Intro` and `Setup` (with their derived identifiers) and a body
containing `[Intro]` and `[Setup]`, both markers become links to
`#intro` and `#setup` and no other text is altered. -/
theorem C5_theorem :
    (∀ (header_text header_id : Text) (parts : List Text),
        (∀ p ∈ parts, segOK (cross_ref_marker header_text) p = true) →
        cross_ref_pass [(header_text, header_id)]
            (joinWith (cross_ref_marker header_text) parts)
          = joinWith (cross_ref_html header_text header_id) parts)
    ∧ cross_ref_pass
        [("Intro".data, heading_identifier "Intro".data),
          ("Setup".data, heading_identifier "Setup".data)]
        "A [Intro] B [Setup] C".data
      = "A ".data ++ cross_ref_html "Intro".data "intro".data ++ " B ".data
          ++ cross_ref_html "Setup".data "setup".data ++ " C".data := by
  constructor
  · intro header_text header_id parts hp
    unfold cross_ref_pass
    simp only [List.foldl_cons, List.foldl_nil]
    unfold pyReplace
    exact scanAux_joinWith (cross_ref_marker header_text)
      (cross_ref_html header_text header_id)
      (by simp [cross_ref_marker]) parts hp
  · decide

/-- Claim C5, witness: one heading, two marker occurrences, both replaced
and the surrounding text untouched. -/
theorem C5_witness :
    cross_ref_pass [("Intro".data, "intro".data)]
        (joinWith (cross_ref_marker "Intro".data) ["x ".data, " mid ".data, " y".data])
      = joinWith (cross_ref_html "Intro".data "intro".data)
          ["x ".data, " mid ".data, " y".data] :=
  C5_theorem.1 "Intro".data "intro".data ["x ".data, " mid ".data, " y".data]
    (by decide)

/-! ## Claim C8: unsupported file kinds -/

/-- The observable per-file outcome of `make_docs` (mindoc.py lines
619-631) before rendering: `diagnostic` records that
`'File type not supported'` was printed, `pre_html` is the documentation
body handed on to `convert_to_html`, and `produced` records that the
pipeline continues to `save_as` (an output file is written).  Rendering
(mistune) and the file system are external collaborators. -/
structure ProcessStep where
  diagnostic : Bool
  pre_html : Text
  produced : Bool
deriving DecidableEq

/-- mindoc.py lines 620-631 with 651-653: dispatch on the file extension;
an unsupported extension prints the diagnostic and continues with an
empty documentation body, and `save_as` is reached in every branch. -/
def process_file (code_file_path code : Text) : ProcessStep :=
  if endsWith code_file_path ".py".data then
    ⟨false, convert_python_blocks code, true⟩
  else if endsWith code_file_path ".sql".data then
    ⟨false, convert_sql_blocks code, true⟩
  else if endsWith code_file_path ".md".data then
    ⟨false, code, true⟩
  else
    ⟨true, [], true⟩

/-- mindoc.py lines 619-620: the batch loop processes every input file. -/
def make_docs (code_files : List (Text × Text)) : List ProcessStep :=
  code_files.map fun f => process_file f.1 f.2

/-- Claim C8: a file whose path ends in none of the supported extensions
produces the diagnostic, continues with the empty documentation body
(still producing an output file), and the remaining files of the batch
are processed exactly as they would be otherwise — the batch does not
abort. -/
theorem C8_theorem (fs gs : List (Text × Text)) (p code : Text)
    (h1 : endsWith p ".py".data = false)
    (h2 : endsWith p ".sql".data = false)
    (h3 : endsWith p ".md".data = false) :
    make_docs (fs ++ (p, code) :: gs)
      = make_docs fs ++ (⟨true, [], true⟩ : ProcessStep) :: make_docs gs := by
  have hp : process_file p code = (⟨true, [], true⟩ : ProcessStep) := by
    unfold process_file
    rw [if_neg (by rw [h1]; exact Bool.false_ne_true),
      if_neg (by rw [h2]; exact Bool.false_ne_true),
      if_neg (by rw [h3]; exact Bool.false_ne_true)]
  unfold make_docs
  rw [List.map_append, List.map_cons]
  simp only []
  rw [hp]

/-- Claim C8, witness: the unsupported `b.txt` in the middle of a batch. -/
theorem C8_witness :
    make_docs ([("a.py".data, "\"\"\"\nd\n\"\"\"\nc".data)]
        ++ ("b.txt".data, "y".data) :: [("c.md".data, "z".data)])
      = make_docs [("a.py".data, "\"\"\"\nd\n\"\"\"\nc".data)]
        ++ (⟨true, [], true⟩ : ProcessStep) :: make_docs [("c.md".data, "z".data)] :=
  C8_theorem [("a.py".data, "\"\"\"\nd\n\"\"\"\nc".data)] [("c.md".data, "z".data)]
    "b.txt".data "y".data (by decide) (by decide) (by decide)

/-! ## Claim C9: the TOC pass is gated on the placeholder -/

/-- mindoc.py lines 633-635: `create_toc` is invoked only when the
literal placeholder `[TOC]` occurs in the rendered HTML; otherwise the
rendered HTML passes through unchanged.  The TOC/heading pass itself
(`create_toc_fn`) is kept abstract: the claim is about the gate. -/
def toc_gate (create_toc_fn : Text → Text) (html : Text) : Text :=
  if hasSub toc_tag html then create_toc_fn html else html

/-- Claim C9: when the rendered HTML does not contain the literal string
`[TOC]`, the entire TOC/heading pass is skipped and the written output
equals the rendered HTML unchanged by those stages — so no heading id
attributes, back-to-contents links, or cross-reference links are added,
even when the document contains h1-h4 headings and bracketed markers. -/
theorem C9_theorem (create_toc_fn : Text → Text) (html : Text)
    (h : hasSub toc_tag html = false) : toc_gate create_toc_fn html = html := by
  unfold toc_gate
  rw [if_neg (by rw [h]; exact Bool.false_ne_true)]

/-- Claim C9, witness: an HTML body with an h1 heading and a bracketed
marker but no `[TOC]`; a TOC pass that would rewrite everything is
skipped. -/
theorem C9_witness :
    toc_gate (fun _ => "CHANGED".data) "<h1>Title</h1><p>see [Title]</p>".data
      = "<h1>Title</h1><p>see [Title]</p>".data :=
  C9_theorem (fun _ => "CHANGED".data) "<h1>Title</h1><p>see [Title]</p>".data
    (by decide)

/-! ## Claim C10: headings with nested markup break the TOC pass -/

/-- The text content that BeautifulSoup's `.string` reports for a heading
element: `some` text for a plain single-text-node heading, `none` when
the heading contains nested markup (bs4 returns `None` then). -/
abbrev HeaderString := Option Text

/-- mindoc.py lines 513-516, the per-heading work of `create_toc`: apply
the identifier derivation to `header.string` and record the pair of
display text and identifier.  When `header.string` is `None`, the
attribute access `None.replace` raises `AttributeError`; the exception is
modelled by `none` propagating to the overall result, so no document is
returned. -/
def collect_headers : List HeaderString → Option (List (Text × Text))
  | [] => some []
  | none :: _ => none
  | some s :: rest =>
    (collect_headers rest).map (fun t => (s, heading_identifier s) :: t)

/-- Claim C10: the TOC pass is only defined when every h1-h4 heading has
plain single-text-node content: on an input whose second heading has
nested markup (string content absent) the pass raises instead of
returning a document, because the identifier derivation is applied to
the heading's missing string content; with every string content present
it returns one. -/
theorem C10_theorem :
    collect_headers [some "Intro".data, none] = none
    ∧ ∀ hs : List HeaderString, (∀ h ∈ hs, h.isSome = true) →
        (collect_headers hs).isSome = true := by
  constructor
  · rfl
  · intro hs h
    induction hs with
    | nil => rfl
    | cons a rest ih =>
      cases a with
      | none => exact absurd (h none (by simp)) (by simp)
      | some s =>
        have hih := ih (fun x hx => h x (by simp [hx]))
        cases hrest : collect_headers rest with
        | none => rw [hrest] at hih; exact Bool.noConfusion hih
        | some t => simp [collect_headers, hrest]

/-- Claim C10, witness: two plain headings succeed. -/
theorem C10_witness :
    (collect_headers [some "Intro".data, some "Setup".data]).isSome = true :=
  C10_theorem.2 [some "Intro".data, some "Setup".data] (by decide)

end Mindoc
